import Mathlib

/-!
# SoftapController (netd) — shallow embedding and checked properties

Source: `src/SoftapController.cpp`.

Conventions of the embedding

* A C string is the list of its bytes before the terminating NUL (`CStr`).
* `int` values are `Int`; a conversion to `int`, `unsigned` or `__u16` is written
  explicitly (`toInt32`, `toU32`, `toU16`).
* The build-time switches and header constants that are not part of the source file
  (`HAVE_HOSTAPD`, `SOFTAP_MAX_BUFFER_SIZE`, `AP_CHANNEL_DEFAULT`, the `ResponseCode`
  values, ...) are fields of `Build`.
* Everything the controller asks of the outside world (ioctl, fork, file calls, the
  key-derivation library, the firmware-path service) is answered by an `Env`; every
  external action performed is appended to a trace of `Event`s.
* `argv` is a list; `argc` is its length; a read of `argv[i]` with `i` not below
  `argc`, and `strlen(NULL)`, stop the run (`Outcome.halt`).
* `mBuf` is a list of bytes. A store at an index outside it is recorded in the trace
  (`Event.oobWrite`) and leaves the list as it is; what such a store does to the memory
  next to `mBuf` is not modelled.
* Allocation (`asprintf`) is assumed to succeed; the settle delays appear in the trace
  as `Event.usleep`, time itself is not modelled.
-/

namespace SoftapController

/-! ## Machine integers and C strings -/

/-- Bytes of a C string, terminator excluded. -/
abbrev CStr := List Char

/-- The terminating byte of a C string. -/
def NUL : Char := Char.ofNat 0

/-- Conversion to `unsigned` (32 bit). -/
def toU32 (x : Int) : Int := x % 4294967296

/-- Conversion to `int` (32 bit, two's complement). -/
def toInt32 (x : Int) : Int := (x + 2147483648) % 4294967296 - 2147483648

/-- Conversion to `__u16`. -/
def toU16 (x : Int) : Int := x % 65536

/-- C `strlen` on a raw byte array: number of bytes before the first NUL. -/
def strlen (buf : List Char) : Nat := buf.findIdx (fun c => c == NUL)

/-- C `strncpy(dst, src, n)` read back as a string: at most `n` bytes of `src`. -/
def strncpy (src : CStr) (n : Nat) : CStr := src.take n

/-- C `isspace` in the "C" locale. -/
def isspace (c : Char) : Bool :=
  c == ' ' || c == '\t' || c == '\n' || c == Char.ofNat 11 || c == Char.ofNat 12 || c == '\r'

/-- Digit accumulation of `atoi`. -/
def atoiDigits : List Char → Int → Int
  | [], acc => acc
  | c :: cs, acc => if c.isDigit then atoiDigits cs (acc * 10 + ((c.toNat : Int) - 48)) else acc

/-- C `atoi`: leading white space, an optional sign, then decimal digits. The value is
the mathematical one; out of the range of `int` the C result is undefined. -/
def atoi (s : CStr) : Int :=
  match s.dropWhile isspace with
  | '-' :: r => - atoiDigits r 0
  | '+' :: r => atoiDigits r 0
  | r => atoiDigits r 0

/-- Output of `printf("%d", n)`. -/
def fmtInt (n : Int) : CStr :=
  if n < 0 then '-' :: Nat.toDigits 10 n.natAbs else Nat.toDigits 10 n.natAbs

/-- Result of `strcasecmp(a, b) == 0` (ASCII case folding). -/
def strcaseeq (a b : CStr) : Bool := a.map Char.toLower == b.map Char.toLower

/-! ## Build configuration, state, environment, trace -/

/-- Values of `ResponseCode.h` used by the controller (the header is not in the source
file, so the values are parameters). -/
structure ResponseCodes where
  SoftapStatusResult : Int
  OperationFailed : Int
  ServiceStartFailed : Int
  CommandSyntaxError : Int
  CommandParameterError : Int
  deriving DecidableEq, Repr

/-- The codes are pairwise distinct and none of them is `0` (the raw success value of a
driver call). -/
def ResponseCodes.Distinct (rc : ResponseCodes) : Prop :=
  [0, rc.SoftapStatusResult, rc.OperationFailed, rc.ServiceStartFailed,
    rc.CommandSyntaxError, rc.CommandParameterError].Nodup

instance (rc : ResponseCodes) : Decidable rc.Distinct := by
  unfold ResponseCodes.Distinct; infer_instance

/-- Compile-time configuration: preprocessor switches and header constants. -/
structure Build where
  /-- Switch `#ifdef HAVE_HOSTAPD`: external-process mode when true, legacy mode when false. -/
  HAVE_HOSTAPD : Bool
  /-- Switch `HOSTAPD_NO_ENTROPY` is defined. -/
  HOSTAPD_NO_ENTROPY : Bool
  /-- Macro `HOSTAPD_DRIVER_NAME`, nl80211 unless the build overrides it. -/
  HOSTAPD_DRIVER_NAME : CStr
  /-- Macro `SOFTAP_MAX_BUFFER_SIZE`: capacity of `mBuf` (and of `tBuf`). -/
  SOFTAP_MAX_BUFFER_SIZE : Nat
  /-- Macro `AP_CHANNEL_DEFAULT`. -/
  AP_CHANNEL_DEFAULT : Int
  /-- Size of the member array `mIface`. -/
  IFACE_SIZE : Nat
  /-- Values of the `ResponseCode` constants. -/
  rc : ResponseCodes

/-- Constant `SHA256_DIGEST_LENGTH` of OpenSSL. -/
def SHA256_DIGEST_LENGTH : Nat := 32

/-- Constant `SIOCDEVPRIVATE` of `<linux/sockios.h>`. -/
def SIOCDEVPRIVATE : Int := 0x89F0

/-- Constant `IFNAMSIZ` of `<linux/if.h>`: size of `wrq.ifr_name`. -/
def IFNAMSIZ : Nat := 16

/-- Size in bytes of `struct iw_priv_args`. -/
def SIZEOF_IW_PRIV_ARGS : Nat := 24

/-- One entry of the driver's private-command table, `struct iw_priv_args` of
`<linux/wireless.h>`: `__u32 cmd; __u16 set_args; __u16 get_args; char name[IFNAMSIZ]`. -/
structure IwPrivArgs where
  cmd : Nat
  set_args : Nat
  get_args : Nat
  name : CStr
  deriving DecidableEq, Repr

/-- The fixed settle delays (`usleep` arguments). -/
inductive Delay
  | AP_DRIVER_START_DELAY | AP_BSS_START_DELAY | AP_BSS_STOP_DELAY | AP_SET_CFG_DELAY
  deriving DecidableEq, Repr

/-- Argument of `wifi_get_fw_path`. -/
inductive FwKind
  | WIFI_GET_FW_PATH_AP | WIFI_GET_FW_PATH_P2P | WIFI_GET_FW_PATH_STA
  deriving DecidableEq, Repr

/-- External actions, in the order performed. -/
inductive Event
  /-- Call `ioctl(mSock, SIOCGIWPRIV, &wrq)`: the discovery query, with `ifr_name` and the
  table capacity offered in `wrq.u.data.length`. -/
  | ioctlGetPriv (ifr_name : CStr) (capacity : Int)
  /-- Call `ioctl(mSock, cmd, &wrq)`: a private command, with `ifr_name`, the request code,
  `wrq.u.data.flags`, `wrq.u.data.length` and the bytes of `mBuf` the length covers. -/
  | ioctlCmd (ifr_name : CStr) (cmd : Int) (flags : Int) (length : Int) (data : List Char)
  | fork
  | ensure_entropy_file_exists
  | execl
  | kill (pid : Int)
  | waitpid (pid : Int)
  | ifc_up (iface : CStr)
  | ifc_down (iface : CStr)
  | openConf
  | writeConf (text : CStr)
  | fchmodConf
  | fchownConf
  | closeConf
  | unlinkConf
  | wifi_get_fw_path (k : FwKind)
  | wifi_change_fw_path (path : CStr)
  | usleep (d : Delay)
  /-- A byte stored at an index of `mBuf` that is not below `sizeof(mBuf)`. -/
  | oobWrite (index : Nat) (byte : Char)
  deriving DecidableEq, Repr

/-- Answers of the outside world. -/
structure Env where
  /-- Answer to `SIOCGIWPRIV`: return value and the table left in `tBuf`
  (`wrq.u.data.length` entries). -/
  getPriv : CStr → Int × List IwPrivArgs
  /-- Return value of the private-command ioctl, by request code, flags, length, data. -/
  privIoctl : Int → Int → Int → List Char → Int
  /-- Return value of `fork()`. -/
  forkRet : Int
  /-- Whether `execl` returns (it returns only when it failed). -/
  execlReturns : Bool
  ifcUpRet : Int
  ifcDownRet : Int
  openRet : Int
  writeRet : Int
  fchmodRet : Int
  fchownRet : Int
  /-- Byte `j` of `PKCS5_PBKDF2_HMAC_SHA1(pass, salt, iter, keylen)`. -/
  pbkdf2 : CStr → CStr → Nat → Nat → Nat → Nat
  /-- Answer of `wifi_get_fw_path` (may be NULL). -/
  fwPath : FwKind → Option CStr
  /-- Return value of `wifi_change_fw_path`. -/
  changeFwPathRet : CStr → Int

/-- Fields of the controller object. `mBuf` is the raw byte array. -/
structure State where
  mSock : Int
  mPid : Int
  mIface : CStr
  mBuf : List Char
  deriving DecidableEq, Repr

/-- Why a run stopped without returning. -/
inductive Halt
  /-- Read of `argv[i]` with `i` not below `argc`. -/
  | argvOutOfRange (i : Nat)
  /-- Call of `strlen` on a NULL pointer. -/
  | nullDeref
  /-- Process image replaced by `execl`. -/
  | execReplaced
  deriving DecidableEq, Repr

/-- Result of a member function: it returns a value and leaves a state, or it stops;
either way with the trace of what it did. -/
inductive Outcome
  | ret (code : Int) (st : State) (tr : List Event)
  | halt (h : Halt) (tr : List Event)
  deriving DecidableEq, Repr

/-- Trace of an outcome. -/
def Outcome.trace : Outcome → List Event
  | .ret _ _ tr => tr
  | .halt _ tr => tr

/-- State left by an outcome that returned. -/
def Outcome.state? : Outcome → Option State
  | .ret _ st _ => some st
  | .halt _ _ => none

/-- Value returned, if the run returned. -/
def Outcome.code? : Outcome → Option Int
  | .ret c _ _ => some c
  | .halt _ _ => none

/-- The event is an ioctl issued on the control socket. -/
def Event.isIoctl : Event → Bool
  | .ioctlGetPriv _ _ => true
  | .ioctlCmd _ _ _ _ _ => true
  | _ => false

/-- The event is a private-command ioctl (not the discovery query). -/
def Event.isCmdIoctl : Event → Bool
  | .ioctlCmd _ _ _ _ _ => true
  | _ => false

/-- The event touches the configuration file. -/
def Event.isConfFile : Event → Bool
  | .openConf => true
  | .writeConf _ => true
  | .fchmodConf => true
  | .fchownConf => true
  | .closeConf => true
  | .unlinkConf => true
  | _ => false

/-! ## Writes into `mBuf` -/

/-- Byte stores of `sprintf(&mBuf[pos], ...)` producing `text`: the text and its
terminating NUL, each with the index of `mBuf` it goes to. -/
def sprintfAt (pos : Nat) (text : CStr) : List (Nat × Char) :=
  (text ++ [NUL]).enumFrom pos

/-- Apply byte stores to the array; a store outside the array leaves it as it is. -/
def store (buf : List Char) (ws : List (Nat × Char)) : List Char :=
  ws.foldl (fun b w => b.set w.1 w.2) buf

/-- The stores that fall outside `mBuf`, as trace events. -/
def oobEvents (cfg : Build) (ws : List (Nat × Char)) : List Event :=
  (ws.filter (fun w => decide (cfg.SOFTAP_MAX_BUFFER_SIZE ≤ w.1))).map
    (fun w => Event.oobWrite w.1 w.2)

/-- Statement `*mBuf = 0`. -/
def clearBuf (st : State) : State := { st with mBuf := st.mBuf.set 0 NUL }

/-! ## `SoftapController::SoftapController` -/

/-- Constructor: `mPid(0)`, `mSock = socket(...)`, `mIface` zeroed; `mBuf` is left
uninitialised (`garbage`). -/
def mkController (socketRet : Int) (garbage : List Char) : State :=
  { mSock := socketRet, mPid := 0, mIface := [], mBuf := garbage }

/-! ## `SoftapController::addParam` -/

/-- Value returned by `addParam`, `mBuf` afterwards, and the byte stores performed. -/
def addParam (cfg : Build) (st : State) (pos : Int) (cmd arg : CStr) :
    Int × State × List (Nat × Char) :=
  if pos < 0 then (pos, st, [])
  else if toU32 (pos + cmd.length + arg.length + 1) ≥ cfg.SOFTAP_MAX_BUFFER_SIZE then
    (-1, st, [])
  else
    let ws := sprintfAt pos.toNat (cmd ++ ['='] ++ arg ++ [','])
    (toInt32 (pos + ((cmd ++ ['='] ++ arg ++ [',']).length : Nat)),
      { st with mBuf := store st.mBuf ws }, ws)

/-! ## `SoftapController::generatePsk` -/

/-- Output of `sprintf("%02x", b)` for an `unsigned char` `b`. -/
def hex2 (b : Nat) : CStr := [Nat.digitChar (b / 16 % 16), Nat.digitChar (b % 16)]

/-- Contents of `psk_str` after `generatePsk(ssid, passphrase, psk_str)`: the
`SHA256_DIGEST_LENGTH` bytes of PBKDF2-HMAC-SHA1 (4096 iterations, salt `ssid`), each
printed as two hexadecimal digits. -/
def generatePsk (env : Env) (ssid passphrase : CStr) : CStr :=
  ((List.range SHA256_DIGEST_LENGTH).map
    (fun j => hex2 (env.pbkdf2 passphrase ssid 4096 SHA256_DIGEST_LENGTH j % 256))).flatten

/-! ## `SoftapController::setCommand` -/

/-- Value of `i` after the first loop of `setCommand`: index of the first entry whose
name equals `fname`, or the table length. -/
def findName (table : List IwPrivArgs) (fname : CStr) : Nat :=
  table.findIdx (fun e => e.name == fname)

/-- Value of `j` after the second loop of `setCommand`: index of the first entry before
`i` with the argument descriptors of `e` and an empty name, or `i`. -/
def findGroup (table : List IwPrivArgs) (i : Nat) (e : IwPrivArgs) : Nat :=
  (table.take i).findIdx
    (fun g => g.set_args == e.set_args && g.get_args == e.get_args && g.name == [])

/-- Lines 112-120 of `setCommand`: size the payload and issue the private ioctl. -/
def issueCmd (env : Env) (st : State) (ifr_name : CStr) (cmd sub_cmd : Int) (buflen : Nat)
    (query : Event) : Int × List Event :=
  let length : Int :=
    if buflen = 0 ∧ st.mBuf.headD NUL ≠ NUL then toU16 ((strlen st.mBuf : Int) + 1)
    else toU16 buflen
  let flags : Int := toU16 sub_cmd
  let data := st.mBuf.take length.toNat
  (env.privIoctl cmd flags length data, [query, Event.ioctlCmd ifr_name cmd flags length data])

/-- The discovery query of `setCommand` (lines 75-79): `SIOCGIWPRIV` on `iface`, offering
room for `sizeof(tBuf) / sizeof(struct iw_priv_args)` entries. -/
def discoveryQuery (cfg : Build) (iface : CStr) : Event :=
  Event.ioctlGetPriv (strncpy iface IFNAMSIZ)
    (toU16 ((cfg.SOFTAP_MAX_BUFFER_SIZE / SIZEOF_IW_PRIV_ARGS : Nat) : Int))

/-- Value returned by `setCommand(iface, fname, buflen)` and the ioctls it issued. -/
def setCommand (cfg : Build) (env : Env) (st : State) (iface fname : CStr) (buflen : Nat) :
    Int × List Event :=
  if cfg.HAVE_HOSTAPD then (0, [])
  else
    let ifr_name := strncpy iface IFNAMSIZ
    let query := discoveryQuery cfg iface
    let ret := (env.getPriv ifr_name).1
    let table := (env.getPriv ifr_name).2
    if ret < 0 then (ret, [query])
    else
      let i := findName table fname
      if h : i < table.length then
        let e := table[i]
        let cmd : Int := toInt32 e.cmd
        if cmd < SIOCDEVPRIVATE then
          let j := findGroup table i e
          if hj : j < i then
            have hjl : j < table.length := Nat.lt_trans hj h
            issueCmd env st ifr_name (toInt32 table[j].cmd) cmd buflen query
          else (-1, [query])
        else issueCmd env st ifr_name cmd 0 buflen query
      else (-1, [query])

/-! ## `startDriver`, `stopDriver` -/

/-- The interface a driver operation works on: the argument, or `mIface` when the
argument is NULL (`none`) or empty. -/
def pickIface (st : State) (iface : Option CStr) : CStr :=
  match iface with
  | none => st.mIface
  | some s => if s = [] then st.mIface else s

/-- Model of `SoftapController::startDriver(iface)`. -/
def startDriver (cfg : Build) (env : Env) (st : State) (iface : Option CStr) : Outcome :=
  if st.mSock < 0 then .ret cfg.rc.OperationFailed st []
  else
    let ifc := pickIface st iface
    let st1 := clearBuf st
    let r := setCommand cfg env st1 ifc "START".toList 0
    if r.1 < 0 then .ret cfg.rc.ServiceStartFailed st1 r.2
    else
      .ret cfg.rc.SoftapStatusResult st1
        (r.2 ++ (if cfg.HAVE_HOSTAPD then [Event.ifc_up ifc] else [])
          ++ [Event.usleep .AP_DRIVER_START_DELAY])

/-- Model of `SoftapController::stopDriver(iface)`. -/
def stopDriver (cfg : Build) (env : Env) (st : State) (iface : Option CStr) : Outcome :=
  if st.mSock < 0 then .ret cfg.rc.OperationFailed st []
  else
    let ifc := pickIface st iface
    let st1 := clearBuf st
    let r := setCommand cfg env st1 ifc "STOP".toList 0
    .ret cfg.rc.SoftapStatusResult st1
      ((if cfg.HAVE_HOSTAPD then [Event.ifc_down ifc] else []) ++ r.2)

/-! ## `startSoftap`, `stopSoftap`, `isSoftapStarted` -/

/-- Model of `SoftapController::startSoftap()`. -/
def startSoftap (cfg : Build) (env : Env) (st : State) : Outcome :=
  if st.mPid ≠ 0 then .ret cfg.rc.SoftapStatusResult st []
  else if st.mSock < 0 then .ret cfg.rc.OperationFailed st []
  else
    let pid : Int := if cfg.HAVE_HOSTAPD then env.forkRet else 1
    let tr0 : List Event := if cfg.HAVE_HOSTAPD then [Event.fork] else []
    if cfg.HAVE_HOSTAPD ∧ pid < 0 then .ret cfg.rc.ServiceStartFailed st tr0
    else if pid = 0 then
      if cfg.HAVE_HOSTAPD then
        let tr1 := tr0 ++ (if cfg.HOSTAPD_NO_ENTROPY then [] else [Event.ensure_entropy_file_exists])
          ++ [Event.execl]
        if env.execlReturns then .ret cfg.rc.ServiceStartFailed st tr1
        else .halt .execReplaced tr1
      else .ret cfg.rc.ServiceStartFailed st tr0
    else
      let st1 := clearBuf st
      let r := setCommand cfg env st1 st1.mIface "AP_BSS_START".toList 0
      if r.1 ≠ 0 then .ret cfg.rc.ServiceStartFailed st1 (tr0 ++ r.2)
      else
        .ret cfg.rc.SoftapStatusResult { st1 with mPid := pid }
          (tr0 ++ r.2 ++ [Event.usleep .AP_BSS_START_DELAY])

/-- Model of `SoftapController::stopSoftap()`. -/
def stopSoftap (cfg : Build) (env : Env) (st : State) : Outcome :=
  if st.mPid = 0 then .ret cfg.rc.SoftapStatusResult st []
  else
    let tr0 : List Event :=
      if cfg.HAVE_HOSTAPD then [Event.kill st.mPid, Event.waitpid st.mPid] else []
    if st.mSock < 0 then .ret cfg.rc.OperationFailed st tr0
    else
      let st1 := clearBuf st
      let r := setCommand cfg env st1 st1.mIface "AP_BSS_STOP".toList 0
      .ret cfg.rc.SoftapStatusResult { st1 with mPid := 0 }
        (tr0 ++ r.2 ++ [Event.usleep .AP_BSS_STOP_DELAY])

/-- Model of `SoftapController::isSoftapStarted()`. -/
def isSoftapStarted (st : State) : Bool := st.mPid != 0

/-! ## `SoftapController::setSoftap` -/

/-- Text of `wbuf` (lines 320-323): the base block of the hostapd configuration. -/
def wbufText (cfg : Build) (iface ssid : CStr) (channel hidden : Int) : CStr :=
  "interface=".toList ++ iface ++ "\ndriver=".toList ++ cfg.HOSTAPD_DRIVER_NAME
    ++ "\nctrl_interface=/data/misc/wifi/hostapd\nssid=".toList ++ ssid
    ++ "\nchannel=".toList ++ fmtInt channel
    ++ "\nieee80211n=1\nhw_mode=g\nignore_broadcast_ssid=".toList ++ fmtInt hidden
    ++ "\n".toList

/-- Lines 325-341: the value of `fbuf` (`none` is the NULL it was initialised to), or
the out-of-range read that stops the run. -/
def buildFbuf (env : Env) (argv : List CStr) (ssid wbuf : CStr) : Except Halt (Option CStr) :=
  let argc : Int := argv.length
  if argc > 7 then
    match argv[7]? with
    | none => .error (.argvOutOfRange 7)
    | some a7 =>
      if a7 = "wpa-psk".toList then
        match argv[8]? with
        | none => .error (.argvOutOfRange 8)
        | some a8 =>
          .ok (some (wbuf ++ "wpa=1\nwpa_pairwise=TKIP CCMP\nwpa_psk=".toList
            ++ generatePsk env ssid a8 ++ "\n".toList))
      else if a7 = "wpa2-psk".toList then
        match argv[8]? with
        | none => .error (.argvOutOfRange 8)
        | some a8 =>
          .ok (some (wbuf ++ "wpa=2\nrsn_pairwise=CCMP\nwpa_psk=".toList
            ++ generatePsk env ssid a8 ++ "\n".toList))
      else if a7 = "open".toList then .ok (some wbuf)
      else .ok none
  else if argc > 6 then
    match argv[6]? with
    | none => .error (.argvOutOfRange 6)
    | some a6 => if a6 = "open".toList then .ok (some wbuf) else .ok none
  else .ok (some wbuf)

/-- Lines 343-373: create the configuration file, write `fbuf`, fix mode and owner. -/
def writeConfFile (cfg : Build) (env : Env) (st : State) (fbuf : Option CStr) : Outcome :=
  if env.openRet < 0 then .ret cfg.rc.OperationFailed st [Event.openConf]
  else
    match fbuf with
    | none => .halt .nullDeref [Event.openConf]
    | some text =>
      let ret : Int :=
        if env.writeRet < 0 then cfg.rc.OperationFailed else cfg.rc.SoftapStatusResult
      if env.fchmodRet < 0 then
        .ret cfg.rc.OperationFailed st
          [Event.openConf, Event.writeConf text, Event.fchmodConf, Event.closeConf,
            Event.unlinkConf]
      else if env.fchownRet < 0 then
        .ret cfg.rc.OperationFailed st
          [Event.openConf, Event.writeConf text, Event.fchmodConf, Event.fchownConf,
            Event.closeConf, Event.unlinkConf]
      else
        .ret ret st
          [Event.openConf, Event.writeConf text, Event.fchmodConf, Event.fchownConf,
            Event.closeConf]

/-- The `#ifdef HAVE_HOSTAPD` branch of `setSoftap` (lines 305-373). -/
def setSoftapHostapd (cfg : Build) (env : Env) (st : State) (argv : List CStr)
    (iface : CStr) : Outcome :=
  let argc : Int := argv.length
  match argv[5]? with
  | none => .halt (.argvOutOfRange 5) []
  | some a5 =>
    let hidden : Int := if strcaseeq a5 "hidden".toList then 1 else 0
    match (if argc > 4 then argv[4]? else some "AndroidAP".toList) with
    | none => .halt (.argvOutOfRange 4) []
    | some ssid =>
      let channel : Int :=
        if argc ≥ 5 then (if atoi a5 ≤ 0 then cfg.AP_CHANNEL_DEFAULT else atoi a5)
        else cfg.AP_CHANNEL_DEFAULT
      let wbuf := wbufText cfg iface ssid channel hidden
      match buildFbuf env argv ssid wbuf with
      | .error h => .halt h []
      | .ok fbuf => writeConfFile cfg env st fbuf

/-- The expression `argc > i ? argv[i] : dflt` of the legacy branch. -/
def argOr (argv : List CStr) (i : Nat) (dflt : CStr) : Option CStr :=
  if (argv.length : Int) > i then argv[i]? else some dflt

/-- The seven `(name, value)` pairs the legacy branch passes to `addParam`, in call
order (lines 376-408), or the out-of-range read that stops the run. -/
def legacyPairs (env : Env) (argv : List CStr) : Except Halt (List (CStr × CStr)) :=
  let argc : Int := argv.length
  match argOr argv 4 "AndroidAP".toList with
  | none => .error (.argvOutOfRange 4)
  | some ssid =>
  match argOr argv 7 "open".toList with
  | none => .error (.argvOutOfRange 7)
  | some sec =>
  match (if argc > 8 then (argv[8]?).map (generatePsk env ssid)
    else some "12345678".toList) with
  | none => .error (.argvOutOfRange 8)
  | some key =>
  match argOr argv 6 "6".toList with
  | none => .error (.argvOutOfRange 6)
  | some channel =>
  match argOr argv 9 "0".toList with
  | none => .error (.argvOutOfRange 9)
  | some preamble =>
  match argOr argv 10 "8".toList with
  | none => .error (.argvOutOfRange 10)
  | some max_scb =>
  .ok [("ASCII_CMD".toList, "AP_CFG".toList), ("SSID".toList, ssid), ("SEC".toList, sec),
    ("KEY".toList, key), ("CHANNEL".toList, channel), ("PREAMBLE".toList, preamble),
    ("MAX_SCB".toList, max_scb)]

/-- The chain `i = addParam(i, name, value)` over the pairs in order: the final `i`, the
state, and all byte stores performed. -/
def addParams (cfg : Build) : State → Int → List (CStr × CStr) →
    Int × State × List (Nat × Char)
  | st, i, [] => (i, st, [])
  | st, i, kv :: rest =>
    let r := addParam cfg st i kv.1 kv.2
    let r2 := addParams cfg r.2.1 r.1 rest
    (r2.1, r2.2.1, r.2.2 ++ r2.2.2)

/-- Lines 376-408 of the legacy branch: the result of the seven `addParam` calls. -/
def legacyParams (cfg : Build) (env : Env) (st : State) (argv : List CStr) :
    Except Halt (Int × State × List (Nat × Char)) :=
  match legacyPairs env argv with
  | .error h => .error h
  | .ok pairs => .ok (addParams cfg st 0 pairs)

/-- The `#else` branch of `setSoftap` (lines 375-424). -/
def setSoftapLegacy (cfg : Build) (env : Env) (st : State) (argv : List CStr)
    (iface : CStr) : Outcome :=
  match legacyParams cfg env st argv with
  | .error h => .halt h []
  | .ok (i, st7, ws) =>
    if i < 0 ∨ toU32 (i + 4) ≥ cfg.SOFTAP_MAX_BUFFER_SIZE then
      .ret cfg.rc.OperationFailed st7 (oobEvents cfg ws)
    else
      let wsEnd := sprintfAt i.toNat "END".toList
      let st8 : State := { st7 with mBuf := store st7.mBuf wsEnd }
      let r := setCommand cfg env st8 iface "AP_SET_CFG".toList 0
      if r.1 ≠ 0 then
        .ret cfg.rc.ServiceStartFailed st8 (oobEvents cfg (ws ++ wsEnd) ++ r.2)
      else
        .ret r.1 st8 (oobEvents cfg (ws ++ wsEnd) ++ r.2 ++ [Event.usleep .AP_SET_CFG_DELAY])

/-- Model of `SoftapController::setSoftap(argc, argv)`, with `argc = argv.length`. -/
def setSoftap (cfg : Build) (env : Env) (st : State) (argv : List CStr) : Outcome :=
  let argc : Int := argv.length
  if st.mSock < 0 then .ret cfg.rc.OperationFailed st []
  else if argc < 5 then .ret cfg.rc.CommandSyntaxError st []
  else
    match argv[3]? with
    | none => .halt (.argvOutOfRange 3) []
    | some a3 =>
      let st1 : State := { st with mIface := strncpy a3 cfg.IFACE_SIZE }
      match argv[2]? with
      | none => .halt (.argvOutOfRange 2) []
      | some iface =>
        if cfg.HAVE_HOSTAPD then setSoftapHostapd cfg env st1 argv iface
        else setSoftapLegacy cfg env st1 argv iface

/-! ## `SoftapController::fwReloadSoftap` -/

/-- Lines 451-457: the firmware kind named by `argv[3]`, if any. -/
def fwKindOf (mode : CStr) : Option FwKind :=
  if mode = "AP".toList then some .WIFI_GET_FW_PATH_AP
  else if mode = "P2P".toList then some .WIFI_GET_FW_PATH_P2P
  else if mode = "STA".toList then some .WIFI_GET_FW_PATH_STA
  else none

/-- Model of `SoftapController::fwReloadSoftap(argc, argv)`, with `argc = argv.length`. -/
def fwReloadSoftap (cfg : Build) (env : Env) (st : State) (argv : List CStr) : Outcome :=
  let argc : Int := argv.length
  if st.mSock < 0 then .ret cfg.rc.OperationFailed st []
  else if argc < 4 then .ret cfg.rc.CommandSyntaxError st []
  else
    match argv[2]? with
    | none => .halt (.argvOutOfRange 2) []
    | some iface =>
      match argv[3]? with
      | none => .halt (.argvOutOfRange 3) []
      | some mode =>
        let tr0 : List Event :=
          match fwKindOf mode with
          | none => []
          | some k => [Event.wifi_get_fw_path k]
        match (fwKindOf mode).bind env.fwPath with
        | none => .ret cfg.rc.CommandParameterError st tr0
        | some fwpath =>
          if cfg.HAVE_HOSTAPD then
            if env.changeFwPathRet fwpath ≠ 0 then
              .ret cfg.rc.OperationFailed st (tr0 ++ [Event.wifi_change_fw_path fwpath])
            else
              .ret cfg.rc.SoftapStatusResult st (tr0 ++ [Event.wifi_change_fw_path fwpath])
          else
            let ws := sprintfAt 0 ("FW_PATH=".toList ++ fwpath)
            let st1 : State := { st with mBuf := store st.mBuf ws }
            let r := setCommand cfg env st1 iface "WL_FW_RELOAD".toList 0
            if r.1 ≠ 0 then .ret cfg.rc.OperationFailed st1 (tr0 ++ oobEvents cfg ws ++ r.2)
            else .ret cfg.rc.SoftapStatusResult st1 (tr0 ++ oobEvents cfg ws ++ r.2)

/-! ## Public operations as one step function, reachable states -/

/-- The public operations of the controller. -/
inductive Op
  | startDriver (iface : Option CStr)
  | stopDriver (iface : Option CStr)
  | startSoftap
  | stopSoftap
  | setSoftap (argv : List CStr)
  | fwReloadSoftap (argv : List CStr)

/-- Run one public operation. -/
def run (cfg : Build) (env : Env) : Op → State → Outcome
  | .startDriver iface, st => startDriver cfg env st iface
  | .stopDriver iface, st => stopDriver cfg env st iface
  | .startSoftap, st => startSoftap cfg env st
  | .stopSoftap, st => stopSoftap cfg env st
  | .setSoftap argv, st => setSoftap cfg env st argv
  | .fwReloadSoftap argv, st => fwReloadSoftap cfg env st argv

/-- States a controller can be in: freshly constructed (whatever `socket` returned),
or left by a public operation that returned, run in a reachable state against any
environment. -/
inductive Reachable (cfg : Build) : State → Prop
  | fresh (socketRet : Int) (garbage : List Char) : Reachable cfg (mkController socketRet garbage)
  | step {s s2 : State} (op : Op) (env : Env) :
      Reachable cfg s → (run cfg env op s).state? = some s2 → Reachable cfg s2

/-! ## Statements of the specification, in its own words -/

/-- The full legacy command string as the specification writes it:
`ASCII_CMD=AP_CFG,SSID=<ssid>,SEC=<sec>,KEY=<key>,CHANNEL=<ch>,PREAMBLE=<p>,MAX_SCB=<m>,END`,
with SSID `AndroidAP`, security `open`, key `12345678`, channel `6`, preamble `0` and
max clients `8` when the argument is absent, and the derived PSK as key when a
passphrase is present. -/
def fullCommand (env : Env) (argv : List CStr) : CStr :=
  let ssid := argv.getD 4 "AndroidAP".toList
  let key := match argv[8]? with
    | some pass => generatePsk env ssid pass
    | none => "12345678".toList
  "ASCII_CMD=AP_CFG,SSID=".toList ++ ssid ++ ",SEC=".toList ++ argv.getD 7 "open".toList
    ++ ",KEY=".toList ++ key ++ ",CHANNEL=".toList ++ argv.getD 6 "6".toList
    ++ ",PREAMBLE=".toList ++ argv.getD 9 "0".toList
    ++ ",MAX_SCB=".toList ++ argv.getD 10 "8".toList ++ ",END".toList

/-- Lines of a configuration text (split at newlines). -/
def confLines (text : CStr) : List CStr := text.splitOn '\n'

/-- The text handed to `write` for the configuration file, if the run got that far. -/
def writtenConf (o : Outcome) : Option CStr :=
  o.trace.findSome? (fun e => match e with
    | .writeConf t => some t
    | _ => none)

/-! ## Concrete builds, environments and inputs used to evaluate the code -/

/-- Sample response codes, pairwise distinct and non-zero (the values netd's
`ResponseCode.h` is known to use). -/
def netdCodes : ResponseCodes :=
  { SoftapStatusResult := 214, OperationFailed := 400, ServiceStartFailed := 402,
    CommandSyntaxError := 500, CommandParameterError := 501 }

/-- An external-process build with default channel 6 and a buffer of 64 bytes. -/
def hostapdBuild : Build :=
  { HAVE_HOSTAPD := true, HOSTAPD_NO_ENTROPY := false,
    HOSTAPD_DRIVER_NAME := "nl80211".toList, SOFTAP_MAX_BUFFER_SIZE := 64,
    AP_CHANNEL_DEFAULT := 6, IFACE_SIZE := 16, rc := netdCodes }

/-- A legacy build whose command buffer holds `n` bytes. -/
def legacyBuild (n : Nat) : Build :=
  { HAVE_HOSTAPD := false, HOSTAPD_NO_ENTROPY := false,
    HOSTAPD_DRIVER_NAME := "nl80211".toList, SOFTAP_MAX_BUFFER_SIZE := n,
    AP_CHANNEL_DEFAULT := 6, IFACE_SIZE := 16, rc := netdCodes }

/-- A driver table with a grouping entry (empty name), a sub-command of it
(`AP_SET_CFG`), two commands with codes of their own, and a sub-command without a
grouping entry (`ORPHAN`). -/
def sampleTable : List IwPrivArgs :=
  [ { cmd := 0x8BE0, set_args := 1, get_args := 2, name := [] },
    { cmd := 3, set_args := 1, get_args := 2, name := "AP_SET_CFG".toList },
    { cmd := 0x8BE2, set_args := 0, get_args := 0, name := "AP_BSS_START".toList },
    { cmd := 0x8BE4, set_args := 0, get_args := 0, name := "AP_BSS_STOP".toList },
    { cmd := 5, set_args := 7, get_args := 7, name := "ORPHAN".toList } ]

/-- An environment in which every external call succeeds; the driver answers the
discovery query with `table`, and the key-derivation library answers with the bytes
0, 1, 2, ... (a stand-in for the digest). -/
def envWith (table : List IwPrivArgs) : Env :=
  { getPriv := fun _ => (0, table), privIoctl := fun _ _ _ _ => 0, forkRet := 77,
    execlReturns := true, ifcUpRet := 0, ifcDownRet := 0, openRet := 5, writeRet := 1,
    fchmodRet := 0, fchownRet := 0, pbkdf2 := fun _ _ _ _ j => j,
    fwPath := fun _ => some "/fw".toList, changeFwPathRet := fun _ => 0 }

/-- The environment with `sampleTable`. -/
def sampleEnv : Env := envWith sampleTable

/-- An argument vector from its words. -/
def args (l : List String) : List CStr := l.map String.toList

/-- A fresh controller with socket descriptor 3 and a buffer of `n` bytes. -/
def fresh (n : Nat) : State := mkController 3 (List.replicate n 'x')

/-- Entry `g` can carry `e` as a sub-command: same argument descriptors, empty name. -/
def IsGroupOf (e g : IwPrivArgs) : Prop :=
  g.set_args = e.set_args ∧ g.get_args = e.get_args ∧ g.name = []

instance (e g : IwPrivArgs) : Decidable (IsGroupOf e g) := by
  unfold IsGroupOf; infer_instance

/-- Claim C5, first case, as stated: when entry `e` (the first entry named `fname`) has a
code at or above `SIOCDEVPRIVATE`, `setCommand` issues exactly one command ioctl, with
that code and flags 0. -/
def DispatchesOwnCode (cfg : Build) (env : Env) (st : State) (iface fname : CStr)
    (buflen : Nat) (e : IwPrivArgs) : Prop :=
  (e.cmd : Int) ≥ SIOCDEVPRIVATE →
    ∃ length data, (setCommand cfg env st iface fname buflen).2
      = [discoveryQuery cfg iface, Event.ioctlCmd (strncpy iface IFNAMSIZ) e.cmd 0 length data]

/-- A table whose only command has a code with the top bit set. -/
def highCodeTable : List IwPrivArgs :=
  [ { cmd := 0x8BE0, set_args := 1, get_args := 2, name := [] },
    { cmd := 0x80000001, set_args := 1, get_args := 2, name := "AP_SET_CFG".toList } ]

/-- Number of bytes the pairs take in the command string: each `name=value,`. -/
def encLen : List (CStr × CStr) → Nat
  | [] => 0
  | kv :: rest => kv.1.length + kv.2.length + 2 + encLen rest

/-- Claim C3 as stated, for one call: the call returns `CommandParameterError`, touches
no configuration file and issues no ioctl. -/
def RejectsSecurityToken (cfg : Build) (env : Env) (st : State) (argv : List CStr) : Prop :=
  (setSoftap cfg env st argv).code? = some cfg.rc.CommandParameterError ∧
  ∀ e ∈ (setSoftap cfg env st argv).trace, e.isConfFile = false ∧ e.isIoctl = false

instance (cfg : Build) (env : Env) (st : State) (argv : List CStr) :
    Decidable (RejectsSecurityToken cfg env st argv) := by
  unfold RejectsSecurityToken; infer_instance

/-- Number of `fork` calls in a trace. -/
def spawnCount (tr : List Event) : Nat := tr.count Event.fork

/-- Number of private-command ioctls in a trace. -/
def dispatchCount (tr : List Event) : Nat := tr.countP Event.isCmdIoctl

/-- The state a successful legacy start leaves from `fresh 64`. -/
def started64 : State := { clearBuf (fresh 64) with mPid := 1 }

/-- Every state the outcome can leave satisfies `P`. -/
def Outcome.Keeps (o : Outcome) (P : State → Prop) : Prop :=
  ∀ s2, o.state? = some s2 → P s2

/-- The socket descriptor and the process handle are those of `st`. -/
def SameHandles (st : State) (s2 : State) : Prop :=
  s2.mSock = st.mSock ∧ s2.mPid = st.mPid

/-! ## Arithmetic of the integer conversions -/

theorem toU32_of_range (x : Int) (h0 : 0 ≤ x) (h1 : x < 4294967296) : toU32 x = x := by
  unfold toU32; omega

theorem toInt32_of_range (x : Int) (h0 : -2147483648 ≤ x) (h1 : x < 2147483648) :
    toInt32 x = x := by
  unfold toInt32; omega

theorem toU16_of_range (x : Int) (h0 : 0 ≤ x) (h1 : x < 65536) : toU16 x = x := by
  unfold toU16; omega

/-! ## `addParam`: where the bytes go -/

theorem mem_enumFrom_last (l : List Char) (p : Nat) (c : Char) :
    (p + l.length, c) ∈ (l ++ [c]).enumFrom p := by
  induction l generalizing p with
  | nil => simp
  | cons a t ih =>
    have h := ih (p + 1)
    have e : p + 1 + t.length = p + (a :: t).length := by simp; omega
    rw [e] at h
    simp only [List.cons_append, List.enumFrom_cons, List.mem_cons]
    exact Or.inr h

theorem mem_sprintfAt_terminator (pos : Nat) (text : CStr) :
    (pos + text.length, NUL) ∈ sprintfAt pos text :=
  mem_enumFrom_last text pos NUL

/-- Claim C1, on the code: `addParam` accepts a request whose text ends exactly at the
last byte of `mBuf` (`pos + strlen(cmd) + strlen(arg) + 2 = sizeof(mBuf)`); it does not
return -1 but `sizeof(mBuf)`, and the terminating NUL of `sprintf` is stored at index
`sizeof(mBuf)`, one past the buffer. -/
theorem addParam_terminator_past_capacity (cfg : Build) (st : State) (pos : Int)
    (cmd arg : CStr) (hpos : 0 ≤ pos)
    (hfull : pos + cmd.length + arg.length + 2 = cfg.SOFTAP_MAX_BUFFER_SIZE)
    (hint : (cfg.SOFTAP_MAX_BUFFER_SIZE : Int) < 2147483648) :
    (addParam cfg st pos cmd arg).1 = cfg.SOFTAP_MAX_BUFFER_SIZE ∧
    (addParam cfg st pos cmd arg).1 ≠ -1 ∧
    (cfg.SOFTAP_MAX_BUFFER_SIZE, NUL) ∈ (addParam cfg st pos cmd arg).2.2 := by
  have hu : toU32 (pos + cmd.length + arg.length + 1)
      = pos + cmd.length + arg.length + 1 := toU32_of_range _ (by omega) (by omega)
  have hnot : ¬ (toU32 (pos + cmd.length + arg.length + 1) ≥ cfg.SOFTAP_MAX_BUFFER_SIZE) := by
    rw [hu]; omega
  have hlen : ((cmd ++ ['='] ++ arg ++ [',']).length : Int) = cmd.length + arg.length + 2 := by
    simp; omega
  have hret : toInt32 (pos + ((cmd ++ ['='] ++ arg ++ [',']).length : Nat))
      = cfg.SOFTAP_MAX_BUFFER_SIZE := by
    rw [toInt32_of_range _ (by omega) (by omega)]; omega
  have hmem := mem_sprintfAt_terminator pos.toNat (cmd ++ ['='] ++ arg ++ [','])
  have hidx : pos.toNat + (cmd ++ ['='] ++ arg ++ [',']).length = cfg.SOFTAP_MAX_BUFFER_SIZE := by
    omega
  rw [hidx] at hmem
  unfold addParam
  rw [if_neg (by omega), if_neg hnot]
  refine ⟨hret, ?_, hmem⟩
  show toInt32 (pos + ((cmd ++ ['='] ++ arg ++ [',']).length : Nat)) ≠ -1
  rw [hret]; omega

/-- Witness of C1: capacity 8, `addParam(0, "KEY", "abc")` returns 8 and stores the
NUL at index 8. -/
theorem addParam_terminator_past_capacity_witness :
    (addParam (legacyBuild 8) (fresh 8) 0 "KEY".toList "abc".toList).1 = (8 : Nat) ∧
    (addParam (legacyBuild 8) (fresh 8) 0 "KEY".toList "abc".toList).1 ≠ -1 ∧
    ((8 : Nat), NUL) ∈ (addParam (legacyBuild 8) (fresh 8) 0 "KEY".toList "abc".toList).2.2 :=
  addParam_terminator_past_capacity (legacyBuild 8) (fresh 8) 0 "KEY".toList "abc".toList
    (by decide) (by decide) (by decide)

/-! ## External-process mode: evaluation of `setSoftap` -/

set_option maxRecDepth 100000 in
/-- Claim C2, on the code: with the documented layout (`argv[5]` visibility, `argv[6]`
channel) and channel argument 11, the configuration written has the line `channel=6`
(the default of this build) and no line `channel=11`: line 315 parses `argv[5]`
(`broadcast`, which `atoi` reads as 0), not `argv[6]`. With `7` at `argv[5]` the line is
`channel=7`. (The `wpa_psk` value shown is the stand-in digest of `sampleEnv`.) -/
theorem setSoftap_hostapd_channel_from_argv5 :
    (writtenConf (setSoftap hostapdBuild sampleEnv (fresh 64)
        (args ["softap", "set", "wlan0", "wl0.1", "AndroidAP", "broadcast", "11",
          "wpa2-psk", "abcdefgh"]))).map confLines
      = some (args ["interface=wlan0", "driver=nl80211",
          "ctrl_interface=/data/misc/wifi/hostapd", "ssid=AndroidAP", "channel=6",
          "ieee80211n=1", "hw_mode=g", "ignore_broadcast_ssid=0", "wpa=2",
          "rsn_pairwise=CCMP",
          "wpa_psk=000102030405060708090a0b0c0d0e0f101112131415161718191a1b1c1d1e1f", ""])
    ∧ (writtenConf (setSoftap hostapdBuild sampleEnv (fresh 64)
        (args ["softap", "set", "wlan0", "wl0.1", "AndroidAP", "7", "11",
          "open"]))).map confLines
      = some (args ["interface=wlan0", "driver=nl80211",
          "ctrl_interface=/data/misc/wifi/hostapd", "ssid=AndroidAP", "channel=7",
          "ieee80211n=1", "hw_mode=g", "ignore_broadcast_ssid=0", ""]) := by
  decide

set_option maxRecDepth 100000 in
/-- Claim C8, on the code: with seven arguments (none at the security position
`argv[7]`) and channel `6` at `argv[6]`, `setSoftap` creates the configuration file and
then applies `strlen` to the NULL `fbuf`: lines 335-338 compare `argv[6]` with `open`
and build no text otherwise. With six arguments the base block is written. -/
theorem setSoftap_hostapd_seven_args_null_fbuf :
    setSoftap hostapdBuild sampleEnv (fresh 64)
        (args ["softap", "set", "wlan0", "wl0.1", "AndroidAP", "broadcast", "6"])
      = .halt .nullDeref [Event.openConf]
    ∧ writtenConf (setSoftap hostapdBuild sampleEnv (fresh 64)
        (args ["softap", "set", "wlan0", "wl0.1", "AndroidAP", "broadcast"]))
      = some (wbufText hostapdBuild "wlan0".toList "AndroidAP".toList 6 0) := by
  decide

set_option maxRecDepth 100000 in
/-- Claim C10, on the code: with five arguments (the accepted minimum) `setSoftap` reads
`argv[5]` (line 305), and with eight arguments and security `wpa-psk` it reads `argv[8]`
(line 327): both positions are not below `argc`. -/
theorem setSoftap_hostapd_reads_past_argc :
    setSoftap hostapdBuild sampleEnv (fresh 64)
        (args ["softap", "set", "wlan0", "wl0.1", "AndroidAP"])
      = .halt (.argvOutOfRange 5) []
    ∧ setSoftap hostapdBuild sampleEnv (fresh 64)
        (args ["softap", "set", "wlan0", "wl0.1", "AndroidAP", "broadcast", "6", "wpa-psk"])
      = .halt (.argvOutOfRange 8) [] := by
  decide

theorem findName_eq (table : List IwPrivArgs) (fname : CStr) (i : Nat) (e : IwPrivArgs)
    (hi : table[i]? = some e) (hname : e.name = fname)
    (hfirst : ∀ k x, k < i → table[k]? = some x → x.name ≠ fname) :
    findName table fname = i := by
  obtain ⟨hlt, he⟩ := List.getElem?_eq_some.mp hi
  unfold findName
  rw [List.findIdx_eq hlt]
  constructor
  · simp [he, hname]
  · intro j hj
    have hjl : j < table.length := by omega
    have := hfirst j table[j] hj (List.getElem?_eq_getElem hjl)
    simpa using this

theorem findGroup_eq (table : List IwPrivArgs) (i j : Nat) (e g : IwPrivArgs)
    (hi : i < table.length) (hj : j < i) (hg : table[j]? = some g) (hgrp : IsGroupOf e g)
    (hleast : ∀ k x, k < j → table[k]? = some x → ¬ IsGroupOf e x) :
    findGroup table i e = j := by
  obtain ⟨hjl, hge⟩ := List.getElem?_eq_some.mp hg
  have hjt : j < (table.take i).length := by simp; omega
  unfold findGroup
  rw [List.findIdx_eq hjt]
  constructor
  · simp only [List.getElem_take, hge]
    obtain ⟨h1, h2, h3⟩ := hgrp
    simp [h1, h2, h3]
  · intro k hk
    have hkl : k < table.length := by omega
    have := hleast k table[k] hk (List.getElem?_eq_getElem hkl)
    simp only [List.getElem_take]
    unfold IsGroupOf at this
    by_contra hc
    simp at hc
    exact this ⟨hc.1, hc.2.1, hc.2.2⟩

theorem findGroup_none (table : List IwPrivArgs) (i : Nat) (e : IwPrivArgs)
    (hi : i < table.length)
    (hno : ∀ k x, k < i → table[k]? = some x → ¬ IsGroupOf e x) :
    findGroup table i e = i := by
  unfold findGroup
  have hlen : (table.take i).length = i := by simp; omega
  have : (table.take i).findIdx
      (fun g => g.set_args == e.set_args && g.get_args == e.get_args && g.name == [])
      = (table.take i).length := by
    apply List.findIdx_eq_length_of_false
    intro x hx
    obtain ⟨k, hk, hkx⟩ := List.getElem_of_mem hx
    have hk2 : k < i := by omega
    have hkl : k < table.length := by omega
    have hx2 : table[k]? = some x := by
      rw [List.getElem?_eq_getElem hkl]
      simp only [List.getElem_take] at hkx
      rw [hkx]
    have := hno k x hk2 hx2
    unfold IsGroupOf at this
    by_contra hc
    simp at hc
    exact this ⟨hc.1, hc.2.1, hc.2.2⟩
  rw [this, hlen]

/-- Claim C4: in legacy mode, when the discovery query succeeds and no entry of the
returned table is named `fname`, `setCommand` returns -1 and the only ioctl it issues is
the discovery query. -/
theorem setCommand_unknown_name (cfg : Build) (env : Env) (st : State) (iface fname : CStr)
    (buflen : Nat) (ret : Int) (table : List IwPrivArgs)
    (hmode : cfg.HAVE_HOSTAPD = false)
    (hq : env.getPriv (strncpy iface IFNAMSIZ) = (ret, table)) (hret : 0 ≤ ret)
    (habs : ∀ e ∈ table, e.name ≠ fname) :
    setCommand cfg env st iface fname buflen = (-1, [discoveryQuery cfg iface]) := by
  have hidx : findName table fname = table.length := by
    unfold findName
    apply List.findIdx_eq_length_of_false
    intro x hx
    simpa using habs x hx
  unfold setCommand
  simp only [hmode, hq, hidx]
  simp [show ¬ ret < 0 by omega]

/-- Witness of C4: the sample table has no command `WL_FW_RELOAD`. -/
theorem setCommand_unknown_name_witness :
    setCommand (legacyBuild 64) sampleEnv (fresh 64) "wlan0".toList "WL_FW_RELOAD".toList 0
      = (-1, [discoveryQuery (legacyBuild 64) "wlan0".toList]) :=
  setCommand_unknown_name (legacyBuild 64) sampleEnv (fresh 64) "wlan0".toList
    "WL_FW_RELOAD".toList 0 0 sampleTable rfl rfl (by decide) (by decide)


theorem issueCmd_shape (env : Env) (st : State) (ifr : CStr) (cmd sub : Int) (buflen : Nat)
    (q : Event) :
    ∃ length data, issueCmd env st ifr cmd sub buflen q
      = (env.privIoctl cmd (toU16 sub) length data,
          [q, Event.ioctlCmd ifr cmd (toU16 sub) length data]) :=
  ⟨_, _, rfl⟩

/-- Claim C5, amended: in legacy mode, after a successful discovery query, let `e` be the
first table entry named `fname`, at index `i`, and `c` its code converted to `int`
(`c` is the code itself below 2^31). If `c` is at or above `SIOCDEVPRIVATE`, `setCommand`
issues exactly one command ioctl, with code `c` and flags 0. If `c` is below
`SIOCDEVPRIVATE` and `g`, at index `j < i`, is the first entry with the argument
descriptors of `e` and an empty name, it issues exactly one command ioctl, with the code
of `g` and flags `c mod 2^16` (`c` itself when `c` is not negative). If `c` is below
`SIOCDEVPRIVATE` and no entry before `i` is such an entry, it returns -1 and issues no
command ioctl. -/
theorem setCommand_resolution (cfg : Build) (env : Env) (st : State) (iface fname : CStr)
    (buflen : Nat) (ret : Int) (table : List IwPrivArgs) (i : Nat) (e : IwPrivArgs)
    (hmode : cfg.HAVE_HOSTAPD = false)
    (hq : env.getPriv (strncpy iface IFNAMSIZ) = (ret, table)) (hret : 0 ≤ ret)
    (hi : table[i]? = some e) (hname : e.name = fname)
    (hfirst : ∀ k x, k < i → table[k]? = some x → x.name ≠ fname) :
    (SIOCDEVPRIVATE ≤ toInt32 e.cmd →
      ∃ length data, setCommand cfg env st iface fname buflen
        = (env.privIoctl (toInt32 e.cmd) 0 length data,
            [discoveryQuery cfg iface,
              Event.ioctlCmd (strncpy iface IFNAMSIZ) (toInt32 e.cmd) 0 length data])) ∧
    (toInt32 e.cmd < SIOCDEVPRIVATE →
      ∀ j g, j < i → table[j]? = some g → IsGroupOf e g →
        (∀ k x, k < j → table[k]? = some x → ¬ IsGroupOf e x) →
        ∃ flags length data, flags = toU16 (toInt32 e.cmd) ∧
          (0 ≤ toInt32 e.cmd → flags = toInt32 e.cmd) ∧
          setCommand cfg env st iface fname buflen
            = (env.privIoctl (toInt32 g.cmd) flags length data,
                [discoveryQuery cfg iface,
                  Event.ioctlCmd (strncpy iface IFNAMSIZ) (toInt32 g.cmd) flags length data])) ∧
    (toInt32 e.cmd < SIOCDEVPRIVATE →
      (∀ k x, k < i → table[k]? = some x → ¬ IsGroupOf e x) →
      setCommand cfg env st iface fname buflen = (-1, [discoveryQuery cfg iface])) := by
  have hfi := findName_eq table fname i e hi hname hfirst
  obtain ⟨hlt, he⟩ := List.getElem?_eq_some.mp hi
  have hnr : ¬ ret < 0 := by omega
  refine ⟨?_, ?_, ?_⟩
  · intro hc
    obtain ⟨l, d, hl⟩ := issueCmd_shape env st (strncpy iface IFNAMSIZ) (toInt32 e.cmd) 0
      buflen (discoveryQuery cfg iface)
    refine ⟨l, d, ?_⟩
    have h0 : toU16 0 = 0 := by decide
    rw [h0] at hl
    rw [← hl]
    unfold setCommand
    simp only [hmode, hq, hfi]
    simp [hnr, hlt, he, show ¬ toInt32 e.cmd < SIOCDEVPRIVATE by omega]
  · intro hc j g hj hg hgrp hleast
    obtain ⟨hjl, hge⟩ := List.getElem?_eq_some.mp hg
    have hfj := findGroup_eq table i j e g hlt hj hg hgrp hleast
    obtain ⟨l, d, hl⟩ := issueCmd_shape env st (strncpy iface IFNAMSIZ) (toInt32 g.cmd)
      (toInt32 e.cmd) buflen (discoveryQuery cfg iface)
    refine ⟨toU16 (toInt32 e.cmd), l, d, rfl, ?_, ?_⟩
    · intro h0
      apply toU16_of_range _ h0
      unfold SIOCDEVPRIVATE at hc
      omega
    · rw [← hl]
      unfold setCommand
      simp only [hmode, hq, hfi]
      simp [hnr, hlt, he, hc, hfj, hj, hge]
  · intro hc hno
    have hfj := findGroup_none table i e hlt hno
    unfold setCommand
    simp only [hmode, hq, hfi]
    simp [hnr, hlt, he, hc, hfj]


set_option maxRecDepth 100000 in
/-- Witness of C5 (amended), one command of the sample table for each case:
`AP_BSS_START` has code 0x8BE2 of its own; `AP_SET_CFG` has code 3, below
`SIOCDEVPRIVATE`, and entry 0 is its grouping entry; `ORPHAN` has code 5 and no
grouping entry. -/
theorem setCommand_resolution_witness :
    (∃ length data,
      setCommand (legacyBuild 64) sampleEnv (fresh 64) "wlan0".toList "AP_BSS_START".toList 0
        = (sampleEnv.privIoctl (toInt32 (0x8BE2 : Nat)) 0 length data,
            [discoveryQuery (legacyBuild 64) "wlan0".toList,
              Event.ioctlCmd (strncpy "wlan0".toList IFNAMSIZ) (toInt32 (0x8BE2 : Nat)) 0
                length data])) ∧
    (∃ flags length data, flags = toU16 (toInt32 (3 : Nat)) ∧
      (0 ≤ toInt32 (3 : Nat) → flags = toInt32 (3 : Nat)) ∧
      setCommand (legacyBuild 64) sampleEnv (fresh 64) "wlan0".toList "AP_SET_CFG".toList 0
        = (sampleEnv.privIoctl (toInt32 (0x8BE0 : Nat)) flags length data,
            [discoveryQuery (legacyBuild 64) "wlan0".toList,
              Event.ioctlCmd (strncpy "wlan0".toList IFNAMSIZ) (toInt32 (0x8BE0 : Nat)) flags
                length data])) ∧
    setCommand (legacyBuild 64) sampleEnv (fresh 64) "wlan0".toList "ORPHAN".toList 0
      = (-1, [discoveryQuery (legacyBuild 64) "wlan0".toList]) :=
  ⟨(setCommand_resolution (legacyBuild 64) sampleEnv (fresh 64) "wlan0".toList
      "AP_BSS_START".toList 0 0 sampleTable 2
      { cmd := 0x8BE2, set_args := 0, get_args := 0, name := "AP_BSS_START".toList }
      rfl rfl (by decide) rfl rfl
      (by
        intro k x hk hx
        interval_cases k <;> simp [sampleTable] at hx <;> subst hx <;> decide)).1
      (by decide),
    (setCommand_resolution (legacyBuild 64) sampleEnv (fresh 64) "wlan0".toList
      "AP_SET_CFG".toList 0 0 sampleTable 1
      { cmd := 3, set_args := 1, get_args := 2, name := "AP_SET_CFG".toList }
      rfl rfl (by decide) rfl rfl
      (by
        intro k x hk hx
        have hk0 : k = 0 := by omega
        subst hk0
        simp [sampleTable] at hx
        subst hx
        decide)).2.1
      (by decide) 0
      { cmd := 0x8BE0, set_args := 1, get_args := 2, name := [] }
      (by decide) rfl (by decide) (by intro k x hk; omega),
    (setCommand_resolution (legacyBuild 64) sampleEnv (fresh 64) "wlan0".toList
      "ORPHAN".toList 0 0 sampleTable 4
      { cmd := 5, set_args := 7, get_args := 7, name := "ORPHAN".toList }
      rfl rfl (by decide) rfl rfl
      (by
        intro k x hk hx
        interval_cases k <;> simp [sampleTable] at hx <;> subst hx <;> decide)).2.2
      (by decide)
      (by
        intro k x hk hx
        interval_cases k <;> simp [sampleTable] at hx <;> subst hx <;> decide)⟩

set_option maxRecDepth 100000 in
/-- Counterexample to C5 as stated: the first entry named `AP_SET_CFG` has code
0x80000001, which is at or above `SIOCDEVPRIVATE`; read into `int cmd` it is negative, so
`setCommand` treats it as a sub-command and issues code 0x8BE0 with flags 1, not code
0x80000001 with flags 0. -/
theorem setCommand_high_code_counterexample :
    setCommand (legacyBuild 64) (envWith highCodeTable) (clearBuf (fresh 64)) "wlan0".toList
        "AP_SET_CFG".toList 0
      = (0, [discoveryQuery (legacyBuild 64) "wlan0".toList,
          Event.ioctlCmd "wlan0".toList 0x8BE0 1 0 []])
    ∧ ¬ DispatchesOwnCode (legacyBuild 64) (envWith highCodeTable) (clearBuf (fresh 64)) "wlan0".toList
        "AP_SET_CFG".toList 0
        { cmd := 0x80000001, set_args := 1, get_args := 2, name := "AP_SET_CFG".toList } := by
  have hev : setCommand (legacyBuild 64) (envWith highCodeTable) (clearBuf (fresh 64)) "wlan0".toList
        "AP_SET_CFG".toList 0
      = (0, [discoveryQuery (legacyBuild 64) "wlan0".toList,
          Event.ioctlCmd "wlan0".toList 0x8BE0 1 0 []]) := by decide
  refine ⟨hev, ?_⟩
  intro h
  obtain ⟨l, d, hd⟩ := h (by decide)
  rw [hev] at hd
  simp at hd


/-! ## Legacy mode: the command string and its size check -/

theorem argOr_eq (argv : List CStr) (i : Nat) (d : CStr) :
    argOr argv i d = some (argv.getD i d) := by
  unfold argOr
  by_cases h : i < argv.length
  · have h2 : (argv.length : Int) > (i : Int) := by omega
    simp [h2, h, List.getD_eq_getElem?_getD, List.getElem?_eq_getElem]
  · have h2 : ¬ (argv.length : Int) > (i : Int) := by omega
    have h3 : argv[i]? = none := List.getElem?_eq_none (by omega)
    simp [h2, List.getD_eq_getElem?_getD, h3]

/-- The key of the legacy command string: the derived PSK when `argv[8]` is present,
`12345678` otherwise. -/
theorem legacyKey_eq (env : Env) (argv : List CStr) (ssid : CStr) :
    (if (argv.length : Int) > 8 then (argv[8]?).map (generatePsk env ssid)
      else some "12345678".toList)
    = some (match argv[8]? with
        | some pass => generatePsk env ssid pass
        | none => "12345678".toList) := by
  by_cases h : 8 < argv.length
  · have h2 : (argv.length : Int) > 8 := by omega
    simp [h2, List.getElem?_eq_getElem h]
  · have h2 : ¬ (argv.length : Int) > 8 := by omega
    have h3 : argv[8]? = none := List.getElem?_eq_none (by omega)
    simp [h2, h3]

theorem legacyPairs_eq (env : Env) (argv : List CStr) :
    legacyPairs env argv = .ok
      [("ASCII_CMD".toList, "AP_CFG".toList),
        ("SSID".toList, argv.getD 4 "AndroidAP".toList),
        ("SEC".toList, argv.getD 7 "open".toList),
        ("KEY".toList, match argv[8]? with
          | some pass => generatePsk env (argv.getD 4 "AndroidAP".toList) pass
          | none => "12345678".toList),
        ("CHANNEL".toList, argv.getD 6 "6".toList),
        ("PREAMBLE".toList, argv.getD 9 "0".toList),
        ("MAX_SCB".toList, argv.getD 10 "8".toList)] := by
  unfold legacyPairs
  simp only [argOr_eq, legacyKey_eq]

theorem legacyPairs_encLen (env : Env) (argv : List CStr) (pairs : List (CStr × CStr))
    (h : legacyPairs env argv = .ok pairs) :
    (fullCommand env argv).length = encLen pairs + 3 := by
  rw [legacyPairs_eq] at h
  injection h with h
  subst h
  simp only [fullCommand, encLen, List.length_append, String.toList]
  simp
  omega


theorem addParam_neg (cfg : Build) (st : State) (pos : Int) (cmd arg : CStr) (h : pos < 0) :
    addParam cfg st pos cmd arg = (pos, st, []) := by
  unfold addParam
  rw [if_pos h]

theorem addParam_fst (cfg : Build) (st : State) (p : Nat) (cmd arg : CStr)
    (hint : (p : Int) + cmd.length + arg.length + 2 < 2147483648) :
    (addParam cfg st p cmd arg).1 =
      if p + cmd.length + arg.length + 2 ≤ cfg.SOFTAP_MAX_BUFFER_SIZE
      then ((p + (cmd.length + arg.length + 2) : Nat) : Int) else -1 := by
  have hu : toU32 ((p : Int) + cmd.length + arg.length + 1)
      = (p : Int) + cmd.length + arg.length + 1 := toU32_of_range _ (by omega) (by omega)
  have hlen : ((cmd ++ ['='] ++ arg ++ [',']).length : Int) = cmd.length + arg.length + 2 := by
    simp; omega
  unfold addParam
  rw [if_neg (by omega), hu]
  by_cases hfit : p + cmd.length + arg.length + 2 ≤ cfg.SOFTAP_MAX_BUFFER_SIZE
  · rw [if_neg (by omega), if_pos hfit]
    show toInt32 ((p : Int) + ((cmd ++ ['='] ++ arg ++ [',']).length : Nat)) = _
    rw [toInt32_of_range _ (by omega) (by omega)]
    omega
  · rw [if_pos (by omega), if_neg hfit]

theorem addParams_neg (cfg : Build) (pairs : List (CStr × CStr)) (st : State) (pos : Int)
    (h : pos < 0) : addParams cfg st pos pairs = (pos, st, []) := by
  induction pairs generalizing st with
  | nil => rfl
  | cons kv rest ih =>
    unfold addParams
    simp only [addParam_neg cfg st pos kv.1 kv.2 h, ih st]
    rfl

/-- The chain of `addParam` calls ends at the encoded length when every prefix fits the
buffer, and at -1 otherwise. -/
theorem addParams_fst (cfg : Build) (pairs : List (CStr × CStr)) (st : State) (p : Nat)
    (hint : (p : Int) + encLen pairs < 2147483648) :
    (addParams cfg st p pairs).1 = -1 ∨
      ((addParams cfg st p pairs).1 = ((p + encLen pairs : Nat) : Int) ∧
        (pairs ≠ [] → p + encLen pairs ≤ cfg.SOFTAP_MAX_BUFFER_SIZE)) := by
  induction pairs generalizing st p with
  | nil => right; simp [addParams, encLen]
  | cons kv rest ih =>
    simp only [encLen] at hint ⊢
    have h1 := addParam_fst cfg st p kv.1 kv.2 (by push_cast at hint ⊢; omega)
    unfold addParams
    simp only
    by_cases hfit : p + kv.1.length + kv.2.length + 2 ≤ cfg.SOFTAP_MAX_BUFFER_SIZE
    · rw [if_pos hfit] at h1
      rw [h1]
      rcases ih (addParam cfg st p kv.1 kv.2).2.1 (p + (kv.1.length + kv.2.length + 2))
        (by push_cast at hint ⊢; omega) with h | ⟨h, hb⟩
      · left; exact h
      · right
        refine ⟨?_, ?_⟩
        · rw [h]; push_cast; omega
        · intro _
          by_cases hr : rest = []
          · subst hr; simp only [encLen]; omega
          · have := hb hr; omega
    · rw [if_neg hfit] at h1
      rw [h1]
      left
      rw [addParams_neg cfg rest _ (-1) (by omega)]

theorem addParams_fits (cfg : Build) (pairs : List (CStr × CStr)) (st : State) (p : Nat)
    (hint : (p : Int) + encLen pairs < 2147483648)
    (hfit : p + encLen pairs ≤ cfg.SOFTAP_MAX_BUFFER_SIZE) :
    (addParams cfg st p pairs).1 = ((p + encLen pairs : Nat) : Int) := by
  induction pairs generalizing st p with
  | nil => simp [addParams, encLen]
  | cons kv rest ih =>
    simp only [encLen] at hint hfit ⊢
    have h1 := addParam_fst cfg st p kv.1 kv.2 (by push_cast at hint ⊢; omega)
    rw [if_pos (by omega)] at h1
    unfold addParams
    simp only
    rw [h1, ih _ (p + (kv.1.length + kv.2.length + 2)) (by push_cast at hint ⊢; omega)
      (by omega)]
    push_cast; omega

theorem oobEvents_benign (cfg : Build) (ws : List (Nat × Char)) :
    ∀ e ∈ oobEvents cfg ws, e.isConfFile = false ∧ e.isIoctl = false := by
  intro e he
  unfold oobEvents at he
  obtain ⟨w, _, hw⟩ := List.mem_map.mp he
  subst hw
  exact ⟨rfl, rfl⟩

/-- In legacy mode `setCommand` issues the discovery query and at most one command
ioctl; a negative or -1 result apart, its value is the driver's answer to that ioctl. -/
theorem setCommand_legacy_shape (cfg : Build) (env : Env) (st : State) (iface fname : CStr)
    (buflen : Nat) (hmode : cfg.HAVE_HOSTAPD = false) :
    ((setCommand cfg env st iface fname buflen).2 = [discoveryQuery cfg iface] ∧
      (setCommand cfg env st iface fname buflen).1 < 0) ∨
    ∃ c f l d, setCommand cfg env st iface fname buflen
      = (env.privIoctl c f l d,
          [discoveryQuery cfg iface, Event.ioctlCmd (strncpy iface IFNAMSIZ) c f l d]) := by
  unfold setCommand
  simp only [hmode]
  simp only [Bool.false_eq_true, if_false]
  split
  · left; exact ⟨rfl, by assumption⟩
  · split
    · split
      · split
        · right; exact ⟨_, _, _, _, rfl⟩
        · left; exact ⟨rfl, by show (-1 : Int) < 0; decide⟩
      · right; exact ⟨_, _, _, _, rfl⟩
    · left; exact ⟨rfl, by show (-1 : Int) < 0; decide⟩


theorem setCommand_legacy_trace (cfg : Build) (env : Env) (st : State) (iface fname : CStr)
    (buflen : Nat) (hmode : cfg.HAVE_HOSTAPD = false) :
    discoveryQuery cfg iface ∈ (setCommand cfg env st iface fname buflen).2 ∧
    ∀ e ∈ (setCommand cfg env st iface fname buflen).2, e.isConfFile = false := by
  rcases setCommand_legacy_shape cfg env st iface fname buflen hmode with ⟨h, _⟩ | ⟨c, f, l, d, h⟩
  · rw [h]
    refine ⟨by simp, ?_⟩
    intro e he
    simp only [List.mem_singleton] at he
    subst he; rfl
  · rw [h]
    refine ⟨by simp, ?_⟩
    intro e he
    simp only [List.mem_cons, List.mem_singleton, List.not_mem_nil, or_false] at he
    rcases he with he | he <;> subst he <;> rfl

/-- The legacy branch of `setSoftap`: it fails the size check exactly when the full
command string with its NUL does not stay below the buffer capacity, and dispatches
`AP_SET_CFG` otherwise. -/
theorem setSoftapLegacy_cases (cfg : Build) (env : Env) (st : State) (argv : List CStr)
    (iface : CStr) (hmode : cfg.HAVE_HOSTAPD = false)
    (hint : (fullCommand env argv).length + 1 < 2147483648) :
    (cfg.SOFTAP_MAX_BUFFER_SIZE ≤ (fullCommand env argv).length + 1 →
      ∃ st2 tr, setSoftapLegacy cfg env st argv iface = .ret cfg.rc.OperationFailed st2 tr ∧
        ∀ e ∈ tr, e.isConfFile = false ∧ e.isIoctl = false) ∧
    ((fullCommand env argv).length + 1 < cfg.SOFTAP_MAX_BUFFER_SIZE →
      ∃ code st2 tr, setSoftapLegacy cfg env st argv iface = .ret code st2 tr ∧
        (code = 0 ∨ code = cfg.rc.ServiceStartFailed) ∧
        discoveryQuery cfg iface ∈ tr ∧ ∀ e ∈ tr, e.isConfFile = false) := by
  obtain ⟨pairs, hp⟩ : ∃ pairs, legacyPairs env argv = .ok pairs := ⟨_, legacyPairs_eq env argv⟩
  have hlen := legacyPairs_encLen env argv pairs hp
  have hne : pairs ≠ [] := by
    rw [legacyPairs_eq] at hp
    injection hp with hp
    subst hp
    simp
  rcases hr : addParams cfg st 0 pairs with ⟨i, st7, ws⟩
  have hfst : (addParams cfg st (0 : Nat) pairs).1 = i := by
    show (addParams cfg st 0 pairs).1 = i
    rw [hr]
  constructor
  · intro hbig
    refine ⟨st7, oobEvents cfg ws, ?_, oobEvents_benign cfg ws⟩
    have hcond : i < 0 ∨ toU32 (i + 4) ≥ cfg.SOFTAP_MAX_BUFFER_SIZE := by
      rcases addParams_fst cfg pairs st 0 (by push_cast; omega) with h | ⟨h, _⟩
      · left; rw [hfst] at h; omega
      · right
        rw [hfst] at h
        rw [h, toU32_of_range _ (by omega) (by push_cast; omega)]
        push_cast; omega
    simp only [setSoftapLegacy, legacyParams, hp, hr]
    rw [if_pos hcond]
  · intro hfit
    have hi : i = ((0 + encLen pairs : Nat) : Int) := by
      rw [← hfst]
      exact addParams_fits cfg pairs st 0 (by push_cast; omega) (by omega)
    have hcond : ¬ (i < 0 ∨ toU32 (i + 4) ≥ cfg.SOFTAP_MAX_BUFFER_SIZE) := by
      rw [hi, toU32_of_range _ (by omega) (by push_cast; omega)]
      push_cast; omega
    simp only [setSoftapLegacy, legacyParams, hp, hr]
    rw [if_neg hcond]
    have htr := setCommand_legacy_trace cfg env
      { st7 with mBuf := store st7.mBuf (sprintfAt i.toNat "END".toList) } iface
      "AP_SET_CFG".toList 0 hmode
    split
    · refine ⟨_, _, _, rfl, Or.inr rfl, ?_, ?_⟩
      · exact List.mem_append_right _ htr.1
      · intro e he
        rcases List.mem_append.mp he with he | he
        · exact (oobEvents_benign cfg _ e he).1
        · exact htr.2 e he
    · rename_i hz
      refine ⟨_, _, _, rfl, Or.inl (by simpa using hz), ?_, ?_⟩
      · exact List.mem_append_left _ (List.mem_append_right _ htr.1)
      · intro e he
        rcases List.mem_append.mp he with he | he
        · rcases List.mem_append.mp he with he | he
          · exact (oobEvents_benign cfg _ e he).1
          · exact htr.2 e he
        · simp only [List.mem_singleton] at he
          subst he; rfl

theorem setSoftap_legacy_unfold (cfg : Build) (env : Env) (st : State) (argv : List CStr)
    (hmode : cfg.HAVE_HOSTAPD = false) (hsock : 0 ≤ st.mSock) (hargc : 5 ≤ argv.length) :
    ∃ a3 iface, argv[3]? = some a3 ∧ argv[2]? = some iface ∧
      setSoftap cfg env st argv
        = setSoftapLegacy cfg env { st with mIface := strncpy a3 cfg.IFACE_SIZE } argv iface := by
  have h3 : argv[3]? = some argv[3] := List.getElem?_eq_getElem (by omega)
  have h2 : argv[2]? = some argv[2] := List.getElem?_eq_getElem (by omega)
  refine ⟨argv[3], argv[2], h3, h2, ?_⟩
  unfold setSoftap
  simp only [h3, h2, hmode]
  rw [if_neg (by omega), if_neg (by omega)]
  simp

/-- Claim C6: in legacy mode, for a call with a valid handle and at least five
arguments whose full command string with its terminating NUL is longer than the buffer
(and short enough for its length to be an `int`), `setSoftap` returns `OperationFailed`
and issues no ioctl at all: `setCommand` is never reached. -/
theorem setSoftap_legacy_too_large (cfg : Build) (env : Env) (st : State) (argv : List CStr)
    (hmode : cfg.HAVE_HOSTAPD = false) (hsock : 0 ≤ st.mSock) (hargc : 5 ≤ argv.length)
    (hint : (fullCommand env argv).length + 1 < 2147483648)
    (hbig : cfg.SOFTAP_MAX_BUFFER_SIZE < (fullCommand env argv).length + 1) :
    ∃ st2 tr, setSoftap cfg env st argv = .ret cfg.rc.OperationFailed st2 tr ∧
      ∀ e ∈ tr, e.isIoctl = false := by
  obtain ⟨a3, iface, _, _, hs⟩ := setSoftap_legacy_unfold cfg env st argv hmode hsock hargc
  obtain ⟨st2, tr, h, hb⟩ :=
    (setSoftapLegacy_cases cfg env { st with mIface := strncpy a3 cfg.IFACE_SIZE } argv iface
      hmode hint).1 (by omega)
  exact ⟨st2, tr, by rw [hs, h], fun e he => (hb e he).2⟩

set_option maxRecDepth 100000 in
/-- Witness of C6: a buffer of 64 bytes and the default command string of 89 bytes. -/
theorem setSoftap_legacy_too_large_witness :
    ∃ st2 tr, setSoftap (legacyBuild 64) sampleEnv (fresh 64)
        (args ["softap", "set", "wlan0", "wl0.1", "AndroidAP"])
        = .ret (legacyBuild 64).rc.OperationFailed st2 tr ∧
      ∀ e ∈ tr, e.isIoctl = false :=
  setSoftap_legacy_too_large (legacyBuild 64) sampleEnv (fresh 64)
    (args ["softap", "set", "wlan0", "wl0.1", "AndroidAP"]) rfl (by decide) (by decide)
    (by decide) (by decide)


/-- Claim C3, amended: in legacy mode, for a call with a valid handle in which a security
token is supplied at `argv[7]`, whatever the token is (so also when it is none of
`wpa-psk`, `wpa2-psk`, `open`) and provided the length of the command string is an
`int`, `setSoftap` does not return `CommandParameterError` and touches no configuration
file: the token is not validated but handed to `addParam` as the value of `SEC`. When
the command string with its NUL does not stay below the buffer capacity the call returns
`OperationFailed` without any ioctl; otherwise it dispatches `AP_SET_CFG` (the discovery
query is issued on `argv[2]`) and returns 0 or `ServiceStartFailed`. -/
theorem setSoftap_legacy_security_unchecked (cfg : Build) (env : Env) (st : State)
    (argv : List CStr) (sec : CStr)
    (hmode : cfg.HAVE_HOSTAPD = false) (hsock : 0 ≤ st.mSock) (hargc : 5 ≤ argv.length)
    (hsec : argv[7]? = some sec)
    (hrc : cfg.rc.Distinct)
    (hint : (fullCommand env argv).length + 1 < 2147483648) :
    (∃ pairs, legacyPairs env argv = .ok pairs ∧ ("SEC".toList, sec) ∈ pairs) ∧
    ∃ code st2 tr, setSoftap cfg env st argv = .ret code st2 tr ∧
      code ≠ cfg.rc.CommandParameterError ∧
      (∀ e ∈ tr, e.isConfFile = false) ∧
      (cfg.SOFTAP_MAX_BUFFER_SIZE ≤ (fullCommand env argv).length + 1 →
        code = cfg.rc.OperationFailed ∧ ∀ e ∈ tr, e.isIoctl = false) ∧
      ((fullCommand env argv).length + 1 < cfg.SOFTAP_MAX_BUFFER_SIZE →
        (code = 0 ∨ code = cfg.rc.ServiceStartFailed) ∧
        discoveryQuery cfg (argv.getD 2 []) ∈ tr) := by
  obtain ⟨a3, iface, _, h2, hs⟩ := setSoftap_legacy_unfold cfg env st argv hmode hsock hargc
  have hif : argv.getD 2 [] = iface := by
    rw [List.getD_eq_getElem?_getD, h2]; rfl
  have hsd : argv.getD 7 "open".toList = sec := by
    rw [List.getD_eq_getElem?_getD, hsec]; rfl
  have hcases := setSoftapLegacy_cases cfg env { st with mIface := strncpy a3 cfg.IFACE_SIZE }
    argv iface hmode hint
  unfold ResponseCodes.Distinct at hrc
  simp only [List.nodup_cons, List.mem_cons, List.mem_singleton, List.not_mem_nil,
    not_or, List.nodup_nil, and_true, not_false_eq_true, or_false] at hrc
  obtain ⟨⟨_, _, _, _, h0p⟩, ⟨_, _, _, _⟩, ⟨_, _, hop⟩, ⟨_, hsp⟩, _⟩ := hrc
  refine ⟨⟨_, legacyPairs_eq env argv, ?_⟩, ?_⟩
  · rw [hsd]; simp
  by_cases hbig : cfg.SOFTAP_MAX_BUFFER_SIZE ≤ (fullCommand env argv).length + 1
  · obtain ⟨st2, tr, h, hb⟩ := hcases.1 hbig
    refine ⟨_, st2, tr, by rw [hs, h], hop, fun e he => (hb e he).1, ?_, ?_⟩
    · intro _; exact ⟨rfl, fun e he => (hb e he).2⟩
    · intro hlt; omega
  · obtain ⟨code, st2, tr, h, hc, hq, hb⟩ := hcases.2 (by omega)
    refine ⟨code, st2, tr, by rw [hs, h], ?_, hb, ?_, ?_⟩
    · rcases hc with hc | hc <;> rw [hc]
      · exact h0p
      · exact hsp
    · intro hge; omega
    · intro _; exact ⟨hc, by rw [hif]; exact hq⟩

set_option maxRecDepth 100000 in
/-- Witness of C3 (amended): security token `wep`, buffer of 200 bytes. -/
theorem setSoftap_legacy_security_unchecked_witness :
    (∃ pairs, legacyPairs sampleEnv (args ["softap", "set", "wlan0", "wl0.1", "AndroidAP",
        "broadcast", "11", "wep", "abcdefgh"]) = .ok pairs
      ∧ ("SEC".toList, "wep".toList) ∈ pairs) ∧
    ∃ code st2 tr, setSoftap (legacyBuild 200) sampleEnv (fresh 200)
        (args ["softap", "set", "wlan0", "wl0.1", "AndroidAP", "broadcast", "11", "wep",
          "abcdefgh"]) = .ret code st2 tr ∧
      code ≠ (legacyBuild 200).rc.CommandParameterError ∧
      (∀ e ∈ tr, e.isConfFile = false) ∧
      ((legacyBuild 200).SOFTAP_MAX_BUFFER_SIZE ≤ (fullCommand sampleEnv
          (args ["softap", "set", "wlan0", "wl0.1", "AndroidAP", "broadcast", "11", "wep",
            "abcdefgh"])).length + 1 →
        code = (legacyBuild 200).rc.OperationFailed ∧ ∀ e ∈ tr, e.isIoctl = false) ∧
      ((fullCommand sampleEnv
          (args ["softap", "set", "wlan0", "wl0.1", "AndroidAP", "broadcast", "11", "wep",
            "abcdefgh"])).length + 1 < (legacyBuild 200).SOFTAP_MAX_BUFFER_SIZE →
        (code = 0 ∨ code = (legacyBuild 200).rc.ServiceStartFailed) ∧
        discoveryQuery (legacyBuild 200) ((args ["softap", "set", "wlan0", "wl0.1",
          "AndroidAP", "broadcast", "11", "wep", "abcdefgh"]).getD 2 []) ∈ tr) :=
  setSoftap_legacy_security_unchecked (legacyBuild 200) sampleEnv (fresh 200)
    (args ["softap", "set", "wlan0", "wl0.1", "AndroidAP", "broadcast", "11", "wep",
      "abcdefgh"]) "wep".toList rfl (by decide) (by decide) rfl (by decide)
    (by decide)

set_option maxRecDepth 100000 in
/-- Counterexample to C3 as stated: in legacy mode, with security token `wep`,
`setSoftap` returns 0 after issuing the `AP_SET_CFG` ioctl; it does not return
`CommandParameterError`. -/
theorem setSoftap_unknown_security_counterexample :
    (setSoftap (legacyBuild 200) sampleEnv (fresh 200)
        (args ["softap", "set", "wlan0", "wl0.1", "AndroidAP", "broadcast", "11", "wep",
          "abcdefgh"])).code? = some 0
    ∧ dispatchCount (setSoftap (legacyBuild 200) sampleEnv (fresh 200)
        (args ["softap", "set", "wlan0", "wl0.1", "AndroidAP", "broadcast", "11", "wep",
          "abcdefgh"])).trace = 1
    ∧ ¬ RejectsSecurityToken (legacyBuild 200) sampleEnv (fresh 200)
        (args ["softap", "set", "wlan0", "wl0.1", "AndroidAP", "broadcast", "11", "wep",
          "abcdefgh"]) := by
  decide


/-! ## Lifecycle: `startSoftap`, `stopSoftap` -/

theorem setCommand_hostapd (cfg : Build) (env : Env) (st : State) (iface fname : CStr)
    (buflen : Nat) (hmode : cfg.HAVE_HOSTAPD = true) :
    setCommand cfg env st iface fname buflen = (0, []) := by
  unfold setCommand
  rw [if_pos hmode]

/-- A start that reports success from a state that is not running leaves a non-zero
process handle, after one `fork` (external-process mode) or one command ioctl (legacy
mode). -/
theorem startSoftap_success (cfg : Build) (env : Env) (st st1 : State) (tr1 : List Event)
    (hrc : cfg.rc.Distinct) (hidle : st.mPid = 0)
    (h1 : startSoftap cfg env st = .ret cfg.rc.SoftapStatusResult st1 tr1) :
    st1.mPid ≠ 0 ∧
    (if cfg.HAVE_HOSTAPD then spawnCount tr1 = 1 ∧ dispatchCount tr1 = 0
      else spawnCount tr1 = 0 ∧ dispatchCount tr1 = 1) := by
  unfold ResponseCodes.Distinct at hrc
  simp only [List.nodup_cons, List.mem_cons, List.mem_singleton, List.not_mem_nil,
    not_or, List.nodup_nil, and_true, not_false_eq_true, or_false] at hrc
  obtain ⟨_, ⟨hso, hss, _, _⟩, _⟩ := hrc
  unfold startSoftap at h1
  rw [if_neg (by simp [hidle])] at h1
  by_cases hsock : st.mSock < 0
  · rw [if_pos hsock] at h1
    injection h1 with hc
    exact absurd hc.symm hso
  rw [if_neg hsock] at h1
  cases hm : cfg.HAVE_HOSTAPD
  · -- legacy mode: pid = 1
    simp only [hm, Bool.false_eq_true, if_false, false_and] at h1
    rw [if_neg (by decide)] at h1
    split at h1
    · injection h1 with hc
      exact absurd hc.symm hss
    · rename_i hz
      injection h1 with _ hst htr
      subst hst htr
      refine ⟨by simp, ?_⟩
      simp only [Bool.false_eq_true, if_false]
      rcases setCommand_legacy_shape cfg env (clearBuf st) (clearBuf st).mIface
        "AP_BSS_START".toList 0 hm with ⟨_, hneg⟩ | ⟨c, f, l, d, h⟩
      · exfalso; apply hz; omega
      · rw [h]
        simp [spawnCount, dispatchCount, discoveryQuery, Event.isCmdIoctl]
  · -- external-process mode: pid = fork()
    simp only [hm, if_true, true_and] at h1
    have hsc := setCommand_hostapd cfg env (clearBuf st) (clearBuf st).mIface
      "AP_BSS_START".toList 0 hm
    rw [hsc] at h1
    split at h1
    · injection h1 with hc
      exact absurd hc.symm hss
    · split at h1
      · split at h1
        · injection h1 with hc
          exact absurd hc.symm hss
        · cases h1
      · rename_i hp0
        simp only [ne_eq, not_true_eq_false, if_false] at h1
        injection h1 with _ hst htr
        subst hst htr
        refine ⟨hp0, ?_⟩
        simp [spawnCount, dispatchCount, Event.isCmdIoctl]

/-- Claim C7: in a state in which the AP is running (`mPid` not zero) `startSoftap`
returns `SoftapStatusResult`, performs no external action and leaves the state as it
is. So, for two consecutive calls from a state that is not running, the first of which
succeeds, the second returns success with an empty trace and an unchanged state, and
the two calls together perform exactly one `fork` (external-process mode) or exactly one
private start ioctl (legacy mode). -/
theorem startSoftap_idempotent (cfg : Build) (env env1 env2 : Env) (sRun st st1 : State)
    (tr1 : List Event) (hrc : cfg.rc.Distinct) (hrun : sRun.mPid ≠ 0) (hidle : st.mPid = 0)
    (h1 : startSoftap cfg env1 st = .ret cfg.rc.SoftapStatusResult st1 tr1) :
    startSoftap cfg env sRun = .ret cfg.rc.SoftapStatusResult sRun [] ∧
    startSoftap cfg env2 st1 = .ret cfg.rc.SoftapStatusResult st1 [] ∧
    (if cfg.HAVE_HOSTAPD then
      spawnCount (tr1 ++ (startSoftap cfg env2 st1).trace) = 1 ∧
        dispatchCount (tr1 ++ (startSoftap cfg env2 st1).trace) = 0
    else
      spawnCount (tr1 ++ (startSoftap cfg env2 st1).trace) = 0 ∧
        dispatchCount (tr1 ++ (startSoftap cfg env2 st1).trace) = 1) := by
  have hrunning : ∀ (e : Env) (s : State), s.mPid ≠ 0 →
      startSoftap cfg e s = .ret cfg.rc.SoftapStatusResult s [] := by
    intro e s hs
    unfold startSoftap
    rw [if_pos hs]
  obtain ⟨hpid, hcount⟩ := startSoftap_success cfg env1 st st1 tr1 hrc hidle h1
  have h2 := hrunning env2 st1 hpid
  refine ⟨hrunning env sRun hrun, h2, ?_⟩
  rw [h2]
  simpa [Outcome.trace] using hcount


set_option maxRecDepth 100000 in
/-- Witness of C7: legacy build, sample driver; the first start issues the discovery
query and the `AP_BSS_START` ioctl (code 0x8BE2), the second nothing. -/
theorem startSoftap_idempotent_witness :
    startSoftap (legacyBuild 64) sampleEnv started64
      = .ret (legacyBuild 64).rc.SoftapStatusResult started64 [] ∧
    startSoftap (legacyBuild 64) sampleEnv started64
      = .ret (legacyBuild 64).rc.SoftapStatusResult started64 [] ∧
    (spawnCount ([discoveryQuery (legacyBuild 64) [], Event.ioctlCmd [] 0x8BE2 0 0 [],
        Event.usleep .AP_BSS_START_DELAY]
        ++ (startSoftap (legacyBuild 64) sampleEnv started64).trace) = 0 ∧
      dispatchCount ([discoveryQuery (legacyBuild 64) [], Event.ioctlCmd [] 0x8BE2 0 0 [],
        Event.usleep .AP_BSS_START_DELAY]
        ++ (startSoftap (legacyBuild 64) sampleEnv started64).trace) = 1) :=
  startSoftap_idempotent (legacyBuild 64) sampleEnv sampleEnv sampleEnv started64 (fresh 64)
    started64
    [discoveryQuery (legacyBuild 64) [], Event.ioctlCmd [] 0x8BE2 0 0 [],
      Event.usleep .AP_BSS_START_DELAY]
    (by decide) (by decide) (by decide) (by decide)

/-! ## Reachable states -/

theorem addParam_frame (cfg : Build) (st : State) (pos : Int) (cmd arg : CStr) :
    (addParam cfg st pos cmd arg).2.1.mSock = st.mSock ∧
    (addParam cfg st pos cmd arg).2.1.mPid = st.mPid := by
  unfold addParam
  split
  · exact ⟨rfl, rfl⟩
  · split <;> exact ⟨rfl, rfl⟩

theorem addParams_frame (cfg : Build) (pairs : List (CStr × CStr)) (st : State) (pos : Int) :
    (addParams cfg st pos pairs).2.1.mSock = st.mSock ∧
    (addParams cfg st pos pairs).2.1.mPid = st.mPid := by
  induction pairs generalizing st pos with
  | nil => exact ⟨rfl, rfl⟩
  | cons kv rest ih =>
    unfold addParams
    have h1 := addParam_frame cfg st pos kv.1 kv.2
    have h2 := ih (addParam cfg st pos kv.1 kv.2).2.1 (addParam cfg st pos kv.1 kv.2).1
    exact ⟨h2.1.trans h1.1, h2.2.trans h1.2⟩

theorem keeps_ret (c : Int) (s : State) (tr : List Event) (P : State → Prop) :
    (Outcome.ret c s tr).Keeps P ↔ P s := by
  simp [Outcome.Keeps, Outcome.state?]

theorem keeps_halt (h : Halt) (tr : List Event) (P : State → Prop) :
    (Outcome.halt h tr).Keeps P := by
  simp [Outcome.Keeps, Outcome.state?]

theorem writeConfFile_keeps (cfg : Build) (env : Env) (st : State) (fbuf : Option CStr) :
    (writeConfFile cfg env st fbuf).Keeps (SameHandles st) := by
  unfold writeConfFile
  repeat' split
  all_goals simp [keeps_ret, keeps_halt, SameHandles]

theorem setSoftapHostapd_keeps (cfg : Build) (env : Env) (st : State) (argv : List CStr)
    (iface : CStr) : (setSoftapHostapd cfg env st argv iface).Keeps (SameHandles st) := by
  unfold setSoftapHostapd
  simp only
  repeat' split
  all_goals first
    | exact keeps_halt _ _ _
    | exact writeConfFile_keeps _ _ _ _

theorem setSoftapLegacy_keeps (cfg : Build) (env : Env) (st : State) (argv : List CStr)
    (iface : CStr) : (setSoftapLegacy cfg env st argv iface).Keeps (SameHandles st) := by
  unfold setSoftapLegacy legacyParams
  rw [legacyPairs_eq]
  simp only
  have hf := addParams_frame cfg
    [("ASCII_CMD".toList, "AP_CFG".toList),
      ("SSID".toList, argv.getD 4 "AndroidAP".toList),
      ("SEC".toList, argv.getD 7 "open".toList),
      ("KEY".toList, match argv[8]? with
        | some pass => generatePsk env (argv.getD 4 "AndroidAP".toList) pass
        | none => "12345678".toList),
      ("CHANNEL".toList, argv.getD 6 "6".toList),
      ("PREAMBLE".toList, argv.getD 9 "0".toList),
      ("MAX_SCB".toList, argv.getD 10 "8".toList)] st 0
  rcases hr : addParams cfg st 0 _ with ⟨i, st7, ws⟩
  rw [hr] at hf
  simp only at hf
  simp only
  repeat' split
  all_goals simp [keeps_ret, keeps_halt, SameHandles, hf]

theorem setSoftap_keeps (cfg : Build) (env : Env) (st : State) (argv : List CStr) :
    (setSoftap cfg env st argv).Keeps (SameHandles st) := by
  unfold setSoftap
  simp only
  split
  · simp [keeps_ret, SameHandles]
  split
  · simp [keeps_ret, SameHandles]
  split
  · exact keeps_halt _ _ _
  split
  · exact keeps_halt _ _ _
  split
  · exact setSoftapHostapd_keeps cfg env _ argv _
  · exact setSoftapLegacy_keeps cfg env _ argv _

theorem fwReloadSoftap_keeps (cfg : Build) (env : Env) (st : State) (argv : List CStr) :
    (fwReloadSoftap cfg env st argv).Keeps (SameHandles st) := by
  unfold fwReloadSoftap
  simp only
  repeat' split
  all_goals simp [keeps_ret, keeps_halt, SameHandles]

theorem startDriver_keeps (cfg : Build) (env : Env) (st : State) (iface : Option CStr) :
    (startDriver cfg env st iface).Keeps (SameHandles st) := by
  unfold startDriver
  simp only
  repeat' split
  all_goals simp [keeps_ret, keeps_halt, SameHandles, clearBuf]

theorem stopDriver_keeps (cfg : Build) (env : Env) (st : State) (iface : Option CStr) :
    (stopDriver cfg env st iface).Keeps (SameHandles st) := by
  unfold stopDriver
  simp only
  repeat' split
  all_goals simp [keeps_ret, keeps_halt, SameHandles, clearBuf]

/-- The process handle is non-zero only on a controller whose socket opened. -/
theorem startSoftap_keeps (cfg : Build) (env : Env) (st : State)
    (hinv : st.mSock < 0 → st.mPid = 0) :
    (startSoftap cfg env st).Keeps (fun s2 => s2.mSock = st.mSock ∧
      (s2.mSock < 0 → s2.mPid = 0)) := by
  unfold startSoftap
  simp only
  split
  · simp [keeps_ret]; exact hinv
  split
  · simp [keeps_ret]; exact hinv
  rename_i hsock
  repeat' split
  all_goals simp [keeps_ret, keeps_halt, clearBuf]
  all_goals first
    | exact hinv
    | omega

theorem stopSoftap_keeps (cfg : Build) (env : Env) (st : State) :
    (stopSoftap cfg env st).Keeps (fun s2 => s2.mSock = st.mSock ∧
      (st.mPid = 0 ∨ 0 ≤ st.mSock → s2.mPid = 0)) := by
  unfold stopSoftap
  simp only
  repeat' split
  all_goals simp [keeps_ret, keeps_halt, clearBuf]
  all_goals omega


/-- On every reachable controller a non-zero process handle comes with an open socket:
only `startSoftap` sets the handle, and it does so after checking the socket. -/
theorem reachable_handle_needs_socket (cfg : Build) (s : State) (h : Reachable cfg s) :
    s.mSock < 0 → s.mPid = 0 := by
  induction h with
  | fresh socketRet garbage => intro _; rfl
  | step op env _ hs ih =>
    cases op with
    | startDriver iface =>
      obtain ⟨h1, h2⟩ := startDriver_keeps cfg env _ iface _ hs
      rw [h1, h2]; exact ih
    | stopDriver iface =>
      obtain ⟨h1, h2⟩ := stopDriver_keeps cfg env _ iface _ hs
      rw [h1, h2]; exact ih
    | startSoftap => exact (startSoftap_keeps cfg env _ ih _ hs).2
    | stopSoftap =>
      obtain ⟨h1, h2⟩ := stopSoftap_keeps cfg env _ _ hs
      intro hneg
      rw [h1] at hneg
      exact h2 (Or.inl (ih hneg))
    | setSoftap argv =>
      obtain ⟨h1, h2⟩ := setSoftap_keeps cfg env _ argv _ hs
      rw [h1, h2]; exact ih
    | fwReloadSoftap argv =>
      obtain ⟨h1, h2⟩ := fwReloadSoftap_keeps cfg env _ argv _ hs
      rw [h1, h2]; exact ih

/-- Claim C9: in every state reachable from a freshly constructed controller (whatever
`socket` returned) by the public operations, in either build mode and against any
environment, `stopSoftap` returns and leaves `isSoftapStarted()` false. -/
theorem stopSoftap_leaves_stopped (cfg : Build) (env : Env) (s : State)
    (h : Reachable cfg s) :
    ∃ code s2 tr, stopSoftap cfg env s = .ret code s2 tr ∧ isSoftapStarted s2 = false := by
  have hinv := reachable_handle_needs_socket cfg s h
  unfold stopSoftap
  by_cases hp : s.mPid = 0
  · rw [if_pos hp]
    exact ⟨_, _, _, rfl, by simp [isSoftapStarted, hp]⟩
  · rw [if_neg hp]
    have hsock : ¬ s.mSock < 0 := fun hneg => hp (hinv hneg)
    simp only [if_neg hsock]
    exact ⟨_, _, _, rfl, by simp [isSoftapStarted]⟩

set_option maxRecDepth 100000 in
/-- Witness of C9: the state left by a successful legacy start is reachable, and
`stopSoftap` leaves it stopped. -/
theorem stopSoftap_leaves_stopped_witness :
    Reachable (legacyBuild 64) started64 ∧
    ∃ code s2 tr, stopSoftap (legacyBuild 64) sampleEnv started64 = .ret code s2 tr ∧
      isSoftapStarted s2 = false :=
  have hreach : Reachable (legacyBuild 64) started64 :=
    @Reachable.step (legacyBuild 64) (fresh 64) started64 Op.startSoftap sampleEnv
      (Reachable.fresh 3 (List.replicate 64 'x')) (by decide)
  ⟨hreach, stopSoftap_leaves_stopped (legacyBuild 64) sampleEnv started64 hreach⟩

end SoftapController
